import Mathlib

/-!
Verification of the building-energy dashboard repository.

The repository serves a precomputed table of building records through a
read-only query API (`src/api.py`) and two dashboards (`src/dashboard.py`,
`src/dashboard_cloud.py`).  We embed the table as a list of records, pandas
floats as rationals, and the query/labeling functions as Lean functions,
then prove the spec's testable properties about them.
-/

namespace BuildingEnergy

/-! ### Model of `json.loads` on SHAP payloads

`shap_json` cells hold a serialized flat mapping from feature name to a
signed decimal number.  We model `json.loads` restricted to that shape: an
object of plain string keys (no escape sequences) mapped to decimal numbers
(optional sign, integer part, optional fractional part), with JSON
whitespace allowed.  Any input outside this shape is rejected (`none`),
which models a raised exception in the Python code. -/

def skipWs : List Char → List Char
  | [] => []
  | c :: cs => if c = ' ' ∨ c = '\t' ∨ c = '\n' ∨ c = '\r' then skipWs cs else c :: cs

def readStringChars : List Char → Option (List Char × List Char)
  | [] => none
  | c :: cs =>
    if c = '\"' then some ([], cs)
    else if c = '\\' then none
    else
      match readStringChars cs with
      | some (s, rest) => some (c :: s, rest)
      | none => none

def readKey : List Char → Option (String × List Char)
  | [] => none
  | c :: cs =>
    if c = '\"' then
      match readStringChars cs with
      | some (s, rest) => some (String.mk s, rest)
      | none => none
    else none

def readDigits (acc : Nat) (n : Nat) : List Char → Nat × Nat × List Char
  | [] => (acc, n, [])
  | c :: cs =>
    if c.isDigit then readDigits (acc * 10 + (c.toNat - 48)) (n + 1) cs
    else (acc, n, c :: cs)

def readNumber (cs : List Char) : Option (Rat × List Char) :=
  let signed : Bool × List Char :=
    match cs with
    | c :: rest => if c = '-' then (true, rest) else (false, c :: rest)
    | [] => (false, [])
  match readDigits 0 0 signed.2 with
  | (ip, n1, cs2) =>
    if n1 = 0 then none
    else
      match cs2 with
      | c :: cs3 =>
        if c = '.' then
          match readDigits 0 0 cs3 with
          | (fp, n2, cs4) =>
            if n2 = 0 then none
            else
              let q : Rat := (ip : Rat) + (fp : Rat) / ((10 : Rat) ^ n2)
              some ((if signed.1 then -q else q), cs4)
        else some ((if signed.1 then -(ip : Rat) else (ip : Rat)), c :: cs3)
      | [] => some ((if signed.1 then -(ip : Rat) else (ip : Rat)), [])

def readPairs (fuel : Nat) (cs : List Char) : Option (List (String × Rat) × List Char) :=
  match fuel with
  | 0 => none
  | fuel + 1 =>
    match readKey (skipWs cs) with
    | none => none
    | some (k, cs1) =>
      match skipWs cs1 with
      | [] => none
      | c :: cs2 =>
        if c = ':' then
          match readNumber (skipWs cs2) with
          | none => none
          | some (v, cs3) =>
            match skipWs cs3 with
            | [] => some ([(k, v)], [])
            | c2 :: cs4 =>
              if c2 = ',' then
                match readPairs fuel cs4 with
                | none => none
                | some (ps, rest) => some ((k, v) :: ps, rest)
              else some ([(k, v)], c2 :: cs4)
        else none

def readObject (cs : List Char) : Option (List (String × Rat)) :=
  match skipWs cs with
  | [] => none
  | c :: cs1 =>
    if c = '\x7b' then
      match skipWs cs1 with
      | [] => none
      | c2 :: cs2 =>
        if c2 = '\x7d' then
          match skipWs cs2 with
          | [] => some []
          | _ :: _ => none
        else
          match readPairs (c2 :: cs2).length (c2 :: cs2) with
          | none => none
          | some (ps, rest) =>
            match skipWs rest with
            | [] => none
            | c3 :: cs3 =>
              if c3 = '\x7d' then
                match skipWs cs3 with
                | [] => some ps
                | _ :: _ => none
              else none
    else none

/-- Model of `json.loads` applied to a `shap_json` cell: parses a flat JSON
object of string keys to numbers, in insertion order; `none` models a raised
exception (malformed payload). -/
def json_loads_shap (s : String) : Option (List (String × Rat)) :=
  readObject s.data

/-! ### Data model: the predictions table -/

/-- The value held by a record's `shap_json` cell.  `absent` means the
column does not exist in the table at all (`'shap_json' in record` is
false); `null` is Python `None`; `nan` is a pandas missing value (truthy in
Python, but `pd.notna` is false and `json.loads` raises on it); `str s` is
an actual string cell. -/
inductive ShapJson where
  | absent
  | null
  | nan
  | str (s : String)
deriving DecidableEq, Repr

/-- One row of the predictions table (`predictions.parquet`). -/
structure Record where
  building_id : String
  building_type : String
  cluster : Int
  is_anomaly : Bool
  underperformer : Bool
  priority_rank : Int
  baseload : Rat
  weekendR : Rat
  recommendation : String
  shap_json : ShapJson
deriving DecidableEq, Repr

/-- The in-memory table `df`.  The two flags model whether the optional
columns `underperformer` and `weekend_ratio` are present in the dataframe
(the code tests `'underperformer' in df.columns` and
`'weekend_ratio' in cluster_df.columns`). -/
structure Table where
  rows : List Record
  hasUnderperformer : Bool
  hasWeekendR : Bool
deriving DecidableEq, Repr

/-! ### Models of the pandas operations used by the code -/

/-- Distinct values of a column in order of first appearance. -/
def distinctVals (seen : List Int) : List Int → List Int
  | [] => []
  | x :: xs => if x ∈ seen then distinctVals seen xs else x :: distinctVals (x :: seen) xs

/-- Model of `df['cluster'].value_counts().to_dict()`: each distinct value
with its count, sorted by count descending (stably). -/
def value_counts (xs : List Int) : List (Int × Nat) :=
  List.insertionSort (fun a b => b.2 ≤ a.2) ((distinctVals [] xs).map (fun v => (v, xs.count v)))

/-- Model of `df.nsmallest(n, 'priority_rank')`: stable ascending sort by
the key, then the first `n` rows. -/
def nsmallest (n : Nat) (rows : List Record) : List Record :=
  (List.insertionSort (fun a b => a.priority_rank ≤ b.priority_rank) rows).take n

/-! ### Response shapes -/

structure PriorityEntry where
  building_id : String
  building_type : String
  recommendation : String
  priority_rank : Int
deriving DecidableEq, Repr

/-- Projection of a row to the four columns selected for `top_priority`. -/
def projPriority (r : Record) : PriorityEntry :=
  { building_id := r.building_id, building_type := r.building_type,
    recommendation := r.recommendation, priority_rank := r.priority_rank }

structure Summary where
  total_buildings : Nat
  anomalies : Nat
  underperformers : Nat
  clusters : List (Int × Nat)
  top_priority : List PriorityEntry
deriving DecidableEq, Repr

/-- Response of `get_building`: the full record plus the optional
`shap_values` key (`none` means the key is not added to the dict). -/
structure BuildingResponse where
  record : Record
  shap_values : Option (List (String × Rat))
deriving DecidableEq, Repr

/-- Response of the cloud dashboard's `get_building`: the record plus a
`shap_values` mapping that is always set (possibly empty). -/
structure CloudBuildingResponse where
  record : Record
  shap_values : List (String × Rat)
deriving DecidableEq, Repr

/-- Response of `get_cluster` in `api.py` (`avg_weekendR` models the
`avg_weekend_ratio` field, `None` when the column is absent). -/
structure ClusterResponse where
  cluster_id : Int
  count : Nat
  avg_baseload : Rat
  avg_weekendR : Option Rat
  buildings : List String
deriving DecidableEq, Repr

/-! ### The query service, `src/api.py` -/

namespace Api

/-- `shap_values` computation of `api.py`'s `get_building`:
`if 'shap_json' in record and record['shap_json']: try json.loads except: {}`.
`absent`/`None`/empty string fail the guard (no key added); `nan` passes the
truthiness guard but `json.loads` raises, caught as `{}`; a non-empty string
is parsed, a parse failure caught as `{}`. -/
def shapValuesOf : ShapJson → Option (List (String × Rat))
  | ShapJson.absent => none
  | ShapJson.null => none
  | ShapJson.nan => some []
  | ShapJson.str s => if s = "" then none else some ((json_loads_shap s).getD [])

/-- Embedding of `api.py`'s `get_building`: filter rows by `building_id`,
404 (`Except.error`) when empty, otherwise the first row plus the parsed
SHAP mapping. -/
def get_building (t : Table) (building_id : String) : Except String BuildingResponse :=
  match t.rows.filter (fun r => r.building_id = building_id) with
  | [] => Except.error "Building not found"
  | r :: _ => Except.ok { record := r, shap_values := shapValuesOf r.shap_json }

/-- Embedding of `api.py`'s `get_summary`. -/
def get_summary (t : Table) : Summary :=
  { total_buildings := t.rows.length
    anomalies := t.rows.countP (fun r => r.is_anomaly)
    underperformers := if t.hasUnderperformer then t.rows.countP (fun r => r.underperformer) else 0
    clusters := value_counts (t.rows.map (fun r => r.cluster))
    top_priority := (nsmallest 10 t.rows).map projPriority }

/-- Embedding of `api.py`'s `get_cluster`: filter rows by `cluster`, 404
(`Except.error`) when empty, otherwise count, mean baseload, optional mean
weekend ratio and the member ids. -/
def get_cluster (t : Table) (cluster_id : Int) : Except String ClusterResponse :=
  let cluster_df := t.rows.filter (fun r => r.cluster = cluster_id)
  match cluster_df with
  | [] => Except.error "Cluster not found"
  | _ :: _ =>
    Except.ok
      { cluster_id := cluster_id
        count := cluster_df.length
        avg_baseload := (cluster_df.map (fun r => r.baseload)).sum / (cluster_df.length : Rat)
        avg_weekendR :=
          if t.hasWeekendR then
            some ((cluster_df.map (fun r => r.weekendR)).sum / (cluster_df.length : Rat))
          else none
        buildings := cluster_df.map (fun r => r.building_id) }

end Api

/-! ### The cloud dashboard's local helpers, `src/dashboard_cloud.py` -/

namespace Cloud

/-- `shap_values` computation of `dashboard_cloud.py`'s `get_building`:
the guard additionally requires `pd.notna`, and the `else` branch sets
`shap_values = {}`, so the key is always present. -/
def shapValuesOf : ShapJson → List (String × Rat)
  | ShapJson.str s => if s = "" then [] else (json_loads_shap s).getD []
  | _ => []

/-- Embedding of `dashboard_cloud.py`'s `get_building` (returns `None` when
no row matches). -/
def get_building (t : Table) (building_id : String) : Option CloudBuildingResponse :=
  match t.rows.filter (fun r => r.building_id = building_id) with
  | [] => none
  | r :: _ => some { record := r, shap_values := shapValuesOf r.shap_json }

/-- Embedding of `dashboard_cloud.py`'s `get_summary` (same body as the
API's). -/
def get_summary (t : Table) : Summary :=
  { total_buildings := t.rows.length
    anomalies := t.rows.countP (fun r => r.is_anomaly)
    underperformers := if t.hasUnderperformer then t.rows.countP (fun r => r.underperformer) else 0
    clusters := value_counts (t.rows.map (fun r => r.cluster))
    top_priority := (nsmallest 10 t.rows).map projPriority }

end Cloud

/-! ### The cluster labeling rule (`get_cluster_description`, identical in
`dashboard.py` and `dashboard_cloud.py`) -/

structure Description where
  name : String
  description : String
  action : String
deriving DecidableEq, Repr

def descriptions_high_baseload : Description :=
  { name := "🔴 High Baseload (24/7 Operators)"
    description := "Buildings with consistently high energy use, even during off-hours."
    action := "**Action:** Priority targets for energy audits and demand-side management programs." }

def descriptions_efficient : Description :=
  { name := "🟢 Efficient Buildings"
    description := "Well-managed buildings with good weekend/night shutdown patterns."
    action := "**Action:** Use as benchmarks. Document best practices for other buildings." }

def descriptions_standard : Description :=
  { name := "🟡 Standard Operations"
    description := "Typical consumption patterns with some optimization potential."
    action := "**Action:** Secondary priority for retro-commissioning programs." }

/-- The `for i, (cid, stats) in enumerate(clusters_by_baseload)` loop of
`get_cluster_description`: walk the sorted list with its index, return at
the first id match; falling off the loop returns `standard`. -/
def descLoop (cluster_id : Int) (total : Nat) : Nat → List (Int × Rat) → Description
  | _, [] => descriptions_standard
  | i, (cid, _) :: rest =>
    if cid = cluster_id then
      if i = 0 then descriptions_high_baseload
      else if i = total - 1 then descriptions_efficient
      else descriptions_standard
    else descLoop cluster_id total (i + 1) rest

/-- Embedding of `get_cluster_description`: `cluster_stats` is the mapping
from cluster id to its `avg_baseload`; the ids are sorted descending by
baseload (stably, as Python's `sorted(..., reverse=True)`), and the queried
cluster is labeled by its position in that order. -/
def get_cluster_description (cluster_id : Int) (cluster_stats : List (Int × Rat)) : Description :=
  let clusters_by_baseload := List.insertionSort (fun a b => b.2 ≤ a.2) cluster_stats
  descLoop cluster_id clusters_by_baseload.length 0 clusters_by_baseload

/-- Embedding of the SHAP chart ordering
`sorted(shap_values.items(), key=lambda x: abs(x[1]), reverse=True)`. -/
def sorted_shap (shap_values : List (String × Rat)) : List (String × Rat) :=
  List.insertionSort (fun a b => |b.2| ≤ |a.2|) shap_values

/-! ### Helper lemmas -/

/-- Filtering a duplicate-free list for a member keeps exactly that member. -/
theorem filter_self_of_nodup {α : Type} [DecidableEq α] :
    ∀ (l : List α), l.Nodup → ∀ r ∈ l, l.filter (fun x => x = r) = [r] := by
  intro l
  induction l with
  | nil => intro _ r hr; cases hr
  | cons a t ih =>
    intro hnd r hr
    rw [List.nodup_cons] at hnd
    rcases List.mem_cons.mp hr with h | h
    · subst h
      rw [List.filter_cons_of_pos (by simp)]
      have ht : t.filter (fun x => x = r) = [] := by
        rw [List.filter_eq_nil_iff]
        intro x hx
        simp only [decide_eq_true_eq]
        intro hxa
        exact hnd.1 (hxa ▸ hx)
      rw [ht]
    · have hne : a ≠ r := fun hEq => hnd.1 (hEq ▸ h)
      rw [List.filter_cons_of_neg (by simpa using hne), ih hnd.2 r h]

/-- When a projection of the rows is duplicate-free, filtering for a row's
key returns exactly that row. -/
theorem filter_key_of_nodup {α β : Type} [DecidableEq β] (f : α → β) :
    ∀ (l : List α), (l.map f).Nodup → ∀ r ∈ l, l.filter (fun x => f x = f r) = [r] := by
  intro l
  induction l with
  | nil => intro _ r hr; cases hr
  | cons a t ih =>
    intro hnd r hr
    rw [List.map_cons, List.nodup_cons] at hnd
    rcases List.mem_cons.mp hr with h | h
    · subst h
      rw [List.filter_cons_of_pos (by simp)]
      have ht : t.filter (fun x => f x = f r) = [] := by
        rw [List.filter_eq_nil_iff]
        intro x hx
        simp only [decide_eq_true_eq]
        intro hxa
        exact hnd.1 (hxa ▸ List.mem_map_of_mem f hx)
      rw [ht]
    · have hne : f a ≠ f r := by
        intro hEq
        exact hnd.1 (hEq ▸ List.mem_map_of_mem f h)
      rw [List.filter_cons_of_neg (by simpa using hne), ih hnd.2 r h]

/-- Unrolling of `descLoop` at the position of the queried cluster id: when
the ids are duplicate-free and the id sits at index `i`, the loop started at
counter `k` classifies it by `k + i` against `total`. -/
theorem descLoop_spec (cluster_id : Int) (total : Nat) :
    ∀ (l : List (Int × Rat)) (k : Nat), (l.map Prod.fst).Nodup →
      ∀ i (hi : i < l.length), (l.get ⟨i, hi⟩).1 = cluster_id →
        descLoop cluster_id total k l =
          (if k + i = 0 then descriptions_high_baseload
           else if k + i = total - 1 then descriptions_efficient
           else descriptions_standard) := by
  intro l
  induction l with
  | nil => intro k _ i hi; exact absurd hi (by simp)
  | cons a rest ih =>
    intro k hnd i hi hget
    obtain ⟨cid, v⟩ := a
    rw [List.map_cons, List.nodup_cons] at hnd
    cases i with
    | zero =>
      have ha : cid = cluster_id := hget
      simp only [descLoop, if_pos ha, Nat.add_zero]
    | succ j =>
      have hj : j < rest.length := by simpa using hi
      have hgetj : (rest.get ⟨j, hj⟩).1 = cluster_id := hget
      have hmm : cluster_id ∈ rest.map Prod.fst := by
        rw [← hgetj]
        exact List.mem_map_of_mem Prod.fst (List.get_mem rest j hj)
      have hne : cid ≠ cluster_id := fun hEq => hnd.1 (by simpa [hEq] using hmm)
      have hrec := ih (k + 1) hnd.2 j hj hgetj
      simp only [descLoop, if_neg hne, hrec,
        show k + 1 + j = k + (j + 1) from by omega]

/-! ### Sample data for concrete witnesses -/

def rowA : Record :=
  { building_id := "A", building_type := "office", cluster := 0, is_anomaly := true,
    underperformer := false, priority_rank := 2, baseload := 5, weekendR := 1,
    recommendation := "audit", shap_json := ShapJson.str "notjson" }

def rowB : Record :=
  { building_id := "B", building_type := "retail", cluster := 1, is_anomaly := false,
    underperformer := true, priority_rank := 1, baseload := 7, weekendR := 2,
    recommendation := "benchmark", shap_json := ShapJson.null }

def sampleTable : Table :=
  { rows := [rowA, rowB], hasUnderperformer := true, hasWeekendR := true }

/-! ### Claim theorems -/

/-- C8: round-trip of the SHAP payload: the valid JSON string
`{"a": 0.5, "b": -0.3}` parses to a mapping which, sorted by descending
absolute value as for the SHAP bar chart, is exactly
`[("a", 0.5), ("b", -0.3)]` in that order. -/
theorem shap_roundtrip_chart_order :
    (json_loads_shap "\x7b\"a\": 0.5, \"b\": -0.3\x7d").map sorted_shap =
      some [("a", (0.5 : Rat)), ("b", (-0.3 : Rat))] := by
  with_unfolding_all rfl

/-- C9: the cloud dashboard's local `get_summary` helper and the API's
`get_summary` endpoint compute identical values for every field of the
summary, on every table. -/
theorem cloud_summary_refines_api (t : Table) :
    (Api.get_summary t).total_buildings = (Cloud.get_summary t).total_buildings
    ∧ (Api.get_summary t).anomalies = (Cloud.get_summary t).anomalies
    ∧ (Api.get_summary t).underperformers = (Cloud.get_summary t).underperformers
    ∧ (Api.get_summary t).clusters = (Cloud.get_summary t).clusters
    ∧ (Api.get_summary t).top_priority = (Cloud.get_summary t).top_priority :=
  ⟨rfl, rfl, rfl, rfl, rfl⟩

/-- C4: the `anomalies` field of `get_summary` counts the records whose
`is_anomaly` flag is true; the count is invariant under permuting the rows,
and on any sublist of the rows it equals the count of true flags there. -/
theorem summary_anomalies_count (t t' : Table) (sub : List Record)
    (hperm : t'.rows.Perm t.rows) (hsub : sub.Sublist t.rows) :
    (Api.get_summary t).anomalies = (t.rows.filter (fun r => r.is_anomaly)).length
    ∧ (Api.get_summary t').anomalies = (Api.get_summary t).anomalies
    ∧ (Api.get_summary (Table.mk sub t.hasUnderperformer t.hasWeekendR)).anomalies
        = (sub.filter (fun r => r.is_anomaly)).length := by
  refine ⟨?_, ?_, ?_⟩
  · exact List.countP_eq_length_filter _ t.rows
  · exact hperm.countP_eq _
  · exact List.countP_eq_length_filter _ sub

theorem summary_anomalies_count_witness :
    (Table.mk [rowB, rowA] true true).rows.Perm sampleTable.rows
    ∧ List.Sublist [rowA] sampleTable.rows
    ∧ ((Api.get_summary sampleTable).anomalies
          = (sampleTable.rows.filter (fun r => r.is_anomaly)).length
      ∧ (Api.get_summary (Table.mk [rowB, rowA] true true)).anomalies
          = (Api.get_summary sampleTable).anomalies
      ∧ (Api.get_summary
            (Table.mk [rowA] sampleTable.hasUnderperformer sampleTable.hasWeekendR)).anomalies
          = ([rowA].filter (fun r => r.is_anomaly)).length) :=
  ⟨by decide, by decide,
    summary_anomalies_count sampleTable (Table.mk [rowB, rowA] true true) [rowA]
      (by decide) (by decide)⟩

/-- C5: for every identifier occurring in the `building_id` column,
`get_building` succeeds (no 404) and the returned record's `building_id`
equals the queried identifier. -/
theorem get_building_found (t : Table) (bid : String)
    (h : bid ∈ t.rows.map Record.building_id) :
    ∃ resp, Api.get_building t bid = Except.ok resp ∧ resp.record.building_id = bid := by
  obtain ⟨r, hr, hrid⟩ := List.mem_map.mp h
  cases hf : t.rows.filter (fun x => x.building_id = bid) with
  | nil =>
    exfalso
    have hmem : r ∈ t.rows.filter (fun x => x.building_id = bid) :=
      List.mem_filter.mpr ⟨hr, by simpa using hrid⟩
    rw [hf] at hmem
    cases hmem
  | cons x xs =>
    refine ⟨{ record := x, shap_values := Api.shapValuesOf x.shap_json }, ?_, ?_⟩
    · simp only [Api.get_building, hf]
    · have hx : x ∈ t.rows.filter (fun y => y.building_id = bid) := by
        rw [hf]
        exact List.mem_cons_self x xs
      have := (List.mem_filter.mp hx).2
      simpa using this

theorem get_building_found_witness :
    "A" ∈ sampleTable.rows.map Record.building_id
    ∧ ∃ resp, Api.get_building sampleTable "A" = Except.ok resp
        ∧ resp.record.building_id = "A" :=
  ⟨by decide, get_building_found sampleTable "A" (by decide)⟩

/-- C6: `get_building` on an identifier absent from the table and
`get_cluster` on a cluster id with no matching records both signal a
NotFound condition as an error result (`Except.error`, modeling the raised
404 `HTTPException`), not a crash; the embedded functions are read-only, so
the table is unchanged by construction. -/
theorem not_found_signalled (t : Table) (bid : String) (cid : Int)
    (hb : bid ∉ t.rows.map Record.building_id)
    (hc : ∀ r ∈ t.rows, r.cluster ≠ cid) :
    Api.get_building t bid = Except.error "Building not found"
    ∧ Api.get_cluster t cid = Except.error "Cluster not found" := by
  have hfb : t.rows.filter (fun r => r.building_id = bid) = [] := by
    rw [List.filter_eq_nil_iff]
    intro r hr
    simp only [decide_eq_true_eq]
    exact fun hEq => hb (hEq ▸ List.mem_map_of_mem Record.building_id hr)
  have hfc : t.rows.filter (fun r => r.cluster = cid) = [] := by
    rw [List.filter_eq_nil_iff]
    intro r hr
    simp only [decide_eq_true_eq]
    exact hc r hr
  constructor
  · simp only [Api.get_building, hfb]
  · simp only [Api.get_cluster, hfc]

theorem not_found_signalled_witness :
    "Z" ∉ sampleTable.rows.map Record.building_id
    ∧ (∀ r ∈ sampleTable.rows, r.cluster ≠ 9)
    ∧ (Api.get_building sampleTable "Z" = Except.error "Building not found"
      ∧ Api.get_cluster sampleTable 9 = Except.error "Cluster not found") :=
  ⟨by decide, by decide, not_found_signalled sampleTable "Z" 9 (by decide) (by decide)⟩

/-- C3: for every table and cluster id with at least one matching record,
`get_cluster` returns `avg_baseload` equal to the arithmetic mean of the
`baseload` values of exactly the records whose `cluster` field equals the
queried id; for a single-member cluster the mean is that member's value. -/
theorem get_cluster_mean (t : Table) (cid : Int)
    (h : t.rows.filter (fun r => r.cluster = cid) ≠ []) :
    ∃ res, Api.get_cluster t cid = Except.ok res
      ∧ res.avg_baseload =
          ((t.rows.filter (fun r => r.cluster = cid)).map (fun r => r.baseload)).sum /
            ((t.rows.filter (fun r => r.cluster = cid)).length : Rat)
      ∧ ∀ r0, t.rows.filter (fun r => r.cluster = cid) = [r0] →
          res.avg_baseload = r0.baseload := by
  cases hf : t.rows.filter (fun r => r.cluster = cid) with
  | nil => exact absurd hf h
  | cons x xs =>
    refine ⟨ClusterResponse.mk cid (x :: xs).length
        (((x :: xs).map (fun r => r.baseload)).sum / ((x :: xs).length : Rat))
        (if t.hasWeekendR then
          some (((x :: xs).map (fun r => r.weekendR)).sum / ((x :: xs).length : Rat))
        else none)
        ((x :: xs).map (fun r => r.building_id)), ?_, ?_, ?_⟩
    · simp only [Api.get_cluster, hf]
    · simp only [hf]
    · intro r0 h1
      obtain ⟨rfl, rfl⟩ : x = r0 ∧ xs = [] := by simpa using h1
      simp

theorem get_cluster_mean_witness :
    sampleTable.rows.filter (fun r => r.cluster = 0) ≠ []
    ∧ ∃ res, Api.get_cluster sampleTable 0 = Except.ok res
        ∧ res.avg_baseload =
            ((sampleTable.rows.filter (fun r => r.cluster = 0)).map (fun r => r.baseload)).sum /
              ((sampleTable.rows.filter (fun r => r.cluster = 0)).length : Rat)
        ∧ ∀ r0, sampleTable.rows.filter (fun r => r.cluster = 0) = [r0] →
            res.avg_baseload = r0.baseload :=
  ⟨by decide, get_cluster_mean sampleTable 0 (by decide)⟩

/-- C7: a record whose `shap_json` is a non-empty string rejected by the
JSON parser is still returned successfully by `get_building`, with an empty
`shap_values` mapping; the parse failure is swallowed, never surfaced as an
error (in both the API and the cloud dashboard versions). -/
theorem malformed_shap_treated_empty (t : Table) (r : Record) (s : String)
    (hnd : (t.rows.map Record.building_id).Nodup) (hmem : r ∈ t.rows)
    (hshap : r.shap_json = ShapJson.str s) (hne : s ≠ "")
    (hbad : json_loads_shap s = none) :
    Api.get_building t r.building_id = Except.ok { record := r, shap_values := some [] }
    ∧ Cloud.get_building t r.building_id = some { record := r, shap_values := [] } := by
  have hf : t.rows.filter (fun x => x.building_id = r.building_id) = [r] :=
    filter_key_of_nodup Record.building_id t.rows hnd r hmem
  have hsv : Api.shapValuesOf r.shap_json = some [] := by
    rw [hshap]
    simp [Api.shapValuesOf, hne, hbad]
  have hsvc : Cloud.shapValuesOf r.shap_json = [] := by
    rw [hshap]
    simp [Cloud.shapValuesOf, hne, hbad]
  constructor
  · simp only [Api.get_building, hf, hsv]
  · simp only [Cloud.get_building, hf, hsvc]

theorem malformed_shap_treated_empty_witness :
    (sampleTable.rows.map Record.building_id).Nodup
    ∧ rowA ∈ sampleTable.rows
    ∧ rowA.shap_json = ShapJson.str "notjson"
    ∧ "notjson" ≠ ""
    ∧ json_loads_shap "notjson" = none
    ∧ (Api.get_building sampleTable rowA.building_id
          = Except.ok { record := rowA, shap_values := some [] }
      ∧ Cloud.get_building sampleTable rowA.building_id
          = some { record := rowA, shap_values := [] }) :=
  ⟨by decide, by decide, rfl, by decide, rfl,
    malformed_shap_treated_empty sampleTable rowA "notjson" (by decide) (by decide) rfl
      (by decide) rfl⟩

/-- C10: when a record's `shap_json` is absent, `None`, or the empty
string, the API's `get_building` returns the record with no `shap_values`
entry at all; conversely a `shap_values` entry is only present when the
cell held a truthy value (a non-empty string, or a NaN cell, which is
truthy in Python). -/
theorem shap_values_key_presence (t : Table) (r : Record)
    (hnd : (t.rows.map Record.building_id).Nodup) (hmem : r ∈ t.rows) :
    ((r.shap_json = ShapJson.absent ∨ r.shap_json = ShapJson.null
        ∨ r.shap_json = ShapJson.str "") →
      Api.get_building t r.building_id = Except.ok { record := r, shap_values := none })
    ∧ (∀ resp, Api.get_building t r.building_id = Except.ok resp → resp.shap_values ≠ none →
        (∃ s, r.shap_json = ShapJson.str s ∧ s ≠ "") ∨ r.shap_json = ShapJson.nan) := by
  have hf : t.rows.filter (fun x => x.building_id = r.building_id) = [r] :=
    filter_key_of_nodup Record.building_id t.rows hnd r hmem
  have hget : Api.get_building t r.building_id
      = Except.ok { record := r, shap_values := Api.shapValuesOf r.shap_json } := by
    simp only [Api.get_building, hf]
  constructor
  · rintro (h | h | h) <;> rw [hget, h] <;> simp [Api.shapValuesOf]
  · intro resp hresp hne
    rw [hget] at hresp
    have hr : ({ record := r, shap_values := Api.shapValuesOf r.shap_json }
        : BuildingResponse) = resp := by
      simpa using hresp
    subst hr
    simp only at hne
    cases hcase : r.shap_json with
    | absent => rw [hcase] at hne; simp [Api.shapValuesOf] at hne
    | null => rw [hcase] at hne; simp [Api.shapValuesOf] at hne
    | nan => exact Or.inr rfl
    | str s =>
      by_cases hs : s = ""
      · rw [hcase, hs] at hne
        simp [Api.shapValuesOf] at hne
      · exact Or.inl ⟨s, rfl, hs⟩

theorem shap_values_key_presence_witness :
    (sampleTable.rows.map Record.building_id).Nodup
    ∧ rowB ∈ sampleTable.rows
    ∧ (((rowB.shap_json = ShapJson.absent ∨ rowB.shap_json = ShapJson.null
          ∨ rowB.shap_json = ShapJson.str "") →
        Api.get_building sampleTable rowB.building_id
          = Except.ok { record := rowB, shap_values := none })
      ∧ (∀ resp, Api.get_building sampleTable rowB.building_id = Except.ok resp →
          resp.shap_values ≠ none →
          (∃ s, rowB.shap_json = ShapJson.str s ∧ s ≠ "") ∨ rowB.shap_json = ShapJson.nan)) :=
  ⟨by decide, by decide, shap_values_key_presence sampleTable rowB (by decide) (by decide)⟩

/-- C2: for every table, the `top_priority` list of `get_summary` is
sorted ascending by `priority_rank`, has length `min 10 (number of
records)`, and each entry is the projection of a table record to
`building_id`, `building_type`, `recommendation` and `priority_rank`. -/
theorem top_priority_sorted (t : Table) :
    List.Pairwise (fun a b : PriorityEntry => a.priority_rank ≤ b.priority_rank)
      (Api.get_summary t).top_priority
    ∧ (Api.get_summary t).top_priority.length = min 10 t.rows.length
    ∧ ∀ e ∈ (Api.get_summary t).top_priority, ∃ r ∈ t.rows, e = projPriority r := by
  haveI : IsTotal Record (fun a b => a.priority_rank ≤ b.priority_rank) :=
    ⟨fun a b => Int.le_total a.priority_rank b.priority_rank⟩
  haveI : IsTrans Record (fun a b => a.priority_rank ≤ b.priority_rank) :=
    ⟨fun _ _ _ h1 h2 => le_trans h1 h2⟩
  have hsorted : List.Pairwise (fun a b : Record => a.priority_rank ≤ b.priority_rank)
      (List.insertionSort (fun a b => a.priority_rank ≤ b.priority_rank) t.rows) :=
    List.sorted_insertionSort _ t.rows
  refine ⟨?_, ?_, ?_⟩
  · show List.Pairwise (fun a b : PriorityEntry => a.priority_rank ≤ b.priority_rank)
      (((List.insertionSort (fun a b => a.priority_rank ≤ b.priority_rank) t.rows).take 10).map
        projPriority)
    exact List.Pairwise.map projPriority (fun a b h => h)
      (List.Pairwise.sublist (List.take_sublist 10 _) hsorted)
  · show (((List.insertionSort (fun a b => a.priority_rank ≤ b.priority_rank) t.rows).take 10).map
        projPriority).length = min 10 t.rows.length
    rw [List.length_map, List.length_take, List.length_insertionSort]
  · intro e he
    have he2 : e ∈ ((List.insertionSort (fun a b => a.priority_rank ≤ b.priority_rank)
        t.rows).take 10).map projPriority := he
    obtain ⟨r, hr, hproj⟩ := List.mem_map.mp he2
    have hrs : r ∈ List.insertionSort (fun a b => a.priority_rank ≤ b.priority_rank) t.rows :=
      List.Sublist.mem hr (List.take_sublist 10 _)
    exact ⟨r, (List.mem_insertionSort _).mp hrs, hproj.symm⟩

/-- C1: with at least 2 clusters and distinct cluster ids, the labeling
rule marks exactly one cluster "high baseload" (one attaining the maximum
mean baseload), exactly one "efficient" (one attaining the minimum), and
every other cluster "standard"; with exactly 1 cluster, it is labeled
"high baseload" (the `i == 0` branch wins the tie). -/
theorem cluster_labeling (stats : List (Int × Rat))
    (hnd : (stats.map Prod.fst).Nodup) :
    (2 ≤ stats.length →
      stats.countP
          (fun p => decide (get_cluster_description p.1 stats = descriptions_high_baseload)) = 1
      ∧ (∀ p ∈ stats, get_cluster_description p.1 stats = descriptions_high_baseload →
          ∀ q ∈ stats, q.2 ≤ p.2)
      ∧ stats.countP
          (fun p => decide (get_cluster_description p.1 stats = descriptions_efficient)) = 1
      ∧ (∀ p ∈ stats, get_cluster_description p.1 stats = descriptions_efficient →
          ∀ q ∈ stats, p.2 ≤ q.2)
      ∧ (∀ p ∈ stats, get_cluster_description p.1 stats ≠ descriptions_high_baseload →
          get_cluster_description p.1 stats ≠ descriptions_efficient →
          get_cluster_description p.1 stats = descriptions_standard))
    ∧ (∀ p : Int × Rat, get_cluster_description p.1 [p] = descriptions_high_baseload) := by
  refine ⟨?_, ?_⟩
  · intro h2
    haveI : IsTotal (Int × Rat) (fun a b => b.2 ≤ a.2) := ⟨fun a b => le_total b.2 a.2⟩
    haveI : IsTrans (Int × Rat) (fun a b => b.2 ≤ a.2) :=
      ⟨fun _ _ _ hab hbc => le_trans hbc hab⟩
    set L := List.insertionSort (fun a b : Int × Rat => b.2 ≤ a.2) stats with hL
    have hperm : L.Perm stats := List.perm_insertionSort _ stats
    have hsort : List.Pairwise (fun a b : Int × Rat => b.2 ≤ a.2) L :=
      List.sorted_insertionSort _ stats
    have hlen : L.length = stats.length := hperm.length_eq
    have hndL : (L.map Prod.fst).Nodup := ((hperm.map Prod.fst).nodup_iff).mpr hnd
    have hndLp : L.Nodup := List.Nodup.of_map Prod.fst hndL
    have hndSp : stats.Nodup := List.Nodup.of_map Prod.fst hnd
    have hLpos : 0 < L.length := by omega
    have hLlast : L.length - 1 < L.length := by omega
    have hm0 : L.length - 1 ≠ 0 := by omega
    have dHE : descriptions_high_baseload ≠ descriptions_efficient := by decide
    have dHS : descriptions_high_baseload ≠ descriptions_standard := by decide
    have dES : descriptions_efficient ≠ descriptions_standard := by decide
    have hchar : ∀ p ∈ stats, ∀ i (hi : i < L.length), L.get ⟨i, hi⟩ = p →
        get_cluster_description p.1 stats =
          (if i = 0 then descriptions_high_baseload
           else if i = L.length - 1 then descriptions_efficient
           else descriptions_standard) := by
      intro p hp i hi hget
      have h0 := descLoop_spec p.1 L.length L 0 hndL i hi (by rw [hget])
      simp only [Nat.zero_add] at h0
      simp only [get_cluster_description, ← hL]
      exact h0
    have hhigh : ∀ p ∈ stats,
        (get_cluster_description p.1 stats = descriptions_high_baseload ↔
          p = L.get ⟨0, hLpos⟩) := by
      intro p hp
      obtain ⟨⟨i, hi⟩, hget⟩ := List.mem_iff_get.mp (hperm.mem_iff.mpr hp)
      rw [hchar p hp i hi hget]
      constructor
      · intro hres
        by_cases h0 : i = 0
        · rw [← hget]; subst h0; rfl
        · by_cases h1 : i = L.length - 1
          · rw [if_neg h0, if_pos h1] at hres; exact absurd hres.symm dHE
          · rw [if_neg h0, if_neg h1] at hres; exact absurd hres.symm dHS
      · intro hp0
        have heqFin : (⟨i, hi⟩ : Fin L.length) = ⟨0, hLpos⟩ :=
          hndLp.get_inj_iff.mp (by rw [hget, hp0])
        have h0 : i = 0 := by simpa using heqFin
        rw [if_pos h0]
    have heff : ∀ p ∈ stats,
        (get_cluster_description p.1 stats = descriptions_efficient ↔
          p = L.get ⟨L.length - 1, hLlast⟩) := by
      intro p hp
      obtain ⟨⟨i, hi⟩, hget⟩ := List.mem_iff_get.mp (hperm.mem_iff.mpr hp)
      rw [hchar p hp i hi hget]
      constructor
      · intro hres
        by_cases h0 : i = 0
        · rw [if_pos h0] at hres; exact absurd hres dHE
        · by_cases h1 : i = L.length - 1
          · rw [← hget]; subst h1; rfl
          · rw [if_neg h0, if_neg h1] at hres; exact absurd hres.symm dES
      · intro hp0
        have heqFin : (⟨i, hi⟩ : Fin L.length) = ⟨L.length - 1, hLlast⟩ :=
          hndLp.get_inj_iff.mp (by rw [hget, hp0])
        have h1 : i = L.length - 1 := by simpa using heqFin
        rw [if_neg (by omega : ¬ i = 0), if_pos h1]
    have hpw := List.pairwise_iff_getElem.mp hsort
    have hcount_high : stats.countP
        (fun p => decide (get_cluster_description p.1 stats = descriptions_high_baseload))
          = 1 := by
      have hcongr := List.countP_congr (fun p hp => by
        simpa using hhigh p hp :
          ∀ p ∈ stats,
            (decide (get_cluster_description p.1 stats = descriptions_high_baseload) = true ↔
              decide (p = L.get ⟨0, hLpos⟩) = true))
      rw [hcongr, List.countP_eq_length_filter,
        filter_self_of_nodup stats hndSp _ (hperm.mem_iff.mp (List.get_mem L 0 hLpos))]
      rfl
    have hcount_eff : stats.countP
        (fun p => decide (get_cluster_description p.1 stats = descriptions_efficient)) = 1 := by
      have hcongr := List.countP_congr (fun p hp => by
        simpa using heff p hp :
          ∀ p ∈ stats,
            (decide (get_cluster_description p.1 stats = descriptions_efficient) = true ↔
              decide (p = L.get ⟨L.length - 1, hLlast⟩) = true))
      rw [hcongr, List.countP_eq_length_filter,
        filter_self_of_nodup stats hndSp _
          (hperm.mem_iff.mp (List.get_mem L (L.length - 1) hLlast))]
      rfl
    have hmax : ∀ p ∈ stats, get_cluster_description p.1 stats = descriptions_high_baseload →
        ∀ q ∈ stats, q.2 ≤ p.2 := by
      intro p hp hres q hq
      have hp0 : p = L.get ⟨0, hLpos⟩ := (hhigh p hp).mp hres
      obtain ⟨⟨j, hj⟩, hgetq⟩ := List.mem_iff_get.mp (hperm.mem_iff.mpr hq)
      rw [hp0, ← hgetq]
      cases Nat.eq_zero_or_pos j with
      | inl h0 => subst h0; exact le_refl _
      | inr hjpos =>
        have hrel := hpw 0 j hLpos hj hjpos
        simpa [List.get_eq_getElem] using hrel
    have hmin : ∀ p ∈ stats, get_cluster_description p.1 stats = descriptions_efficient →
        ∀ q ∈ stats, p.2 ≤ q.2 := by
      intro p hp hres q hq
      have hp1 : p = L.get ⟨L.length - 1, hLlast⟩ := (heff p hp).mp hres
      obtain ⟨⟨j, hj⟩, hgetq⟩ := List.mem_iff_get.mp (hperm.mem_iff.mpr hq)
      rw [hp1, ← hgetq]
      by_cases hjm : j = L.length - 1
      · subst hjm; exact le_refl _
      · have hrel := hpw j (L.length - 1) hj hLlast (by omega)
        simpa [List.get_eq_getElem] using hrel
    have hstd : ∀ p ∈ stats, get_cluster_description p.1 stats ≠ descriptions_high_baseload →
        get_cluster_description p.1 stats ≠ descriptions_efficient →
        get_cluster_description p.1 stats = descriptions_standard := by
      intro p hp hnh hnef
      obtain ⟨⟨i, hi⟩, hget⟩ := List.mem_iff_get.mp (hperm.mem_iff.mpr hp)
      rw [hchar p hp i hi hget] at hnh hnef ⊢
      by_cases h0 : i = 0
      · rw [if_pos h0] at hnh; exact absurd rfl hnh
      · by_cases h1 : i = L.length - 1
        · rw [if_neg h0, if_pos h1] at hnef; exact absurd rfl hnef
        · rw [if_neg h0, if_neg h1]
    exact ⟨hcount_high, hmax, hcount_eff, hmin, hstd⟩
  · intro p
    obtain ⟨cid, v⟩ := p
    simp [get_cluster_description, descLoop]

def wstats : List (Int × Rat) := [(0, 5), (1, 7)]

theorem cluster_labeling_witness :
    ((wstats.map Prod.fst).Nodup)
    ∧ ((2 ≤ wstats.length →
        wstats.countP
            (fun p => decide (get_cluster_description p.1 wstats = descriptions_high_baseload))
              = 1
        ∧ (∀ p ∈ wstats, get_cluster_description p.1 wstats = descriptions_high_baseload →
            ∀ q ∈ wstats, q.2 ≤ p.2)
        ∧ wstats.countP
            (fun p => decide (get_cluster_description p.1 wstats = descriptions_efficient)) = 1
        ∧ (∀ p ∈ wstats, get_cluster_description p.1 wstats = descriptions_efficient →
            ∀ q ∈ wstats, p.2 ≤ q.2)
        ∧ (∀ p ∈ wstats, get_cluster_description p.1 wstats ≠ descriptions_high_baseload →
            get_cluster_description p.1 wstats ≠ descriptions_efficient →
            get_cluster_description p.1 wstats = descriptions_standard))
      ∧ (∀ p : Int × Rat, get_cluster_description p.1 [p] = descriptions_high_baseload)) :=
  ⟨by decide, cluster_labeling wstats (by decide)⟩

end BuildingEnergy
